import Mathlib

/-!
Verification of the cue_sheet tracklist assembler (src/src/tracklist.rs).

The assembler consumes an ordered sequence of already-parsed CUE directives
and builds a Tracklist of TrackFiles of Tracks, synthesizing pregap index
entries and inferring per-track durations from adjacent index timestamps.

The Rust code consumes a Vec of commands destructively from the front; each
function taking a mutable vector is embedded as a function from the command
list to a result paired with the remaining command list, so that mutations
performed before an early error return are visible to the caller, exactly as
with a Rust mutable borrow.

The Time type and its frame arithmetic live in the external parser module,
which is not part of the assembler source; they are modelled from the spec
(section 4.1).  Machine integers (u32, u64, usize, u8) are modelled as Nat;
the only subtraction sites are the two frame subtractions, where the Rust u64
subtraction has an unguarded underflow (flagged as an open question in the
spec) and the embedding uses truncating Nat subtraction.
-/

namespace CueSheet

/-- Modelled from the spec (section 4.1): a disc timestamp of the external
parser module, minutes / seconds / frames with 75 frames per second. -/
structure Time where
  minutes : Nat
  seconds : Nat
  frames : Nat
deriving DecidableEq, Repr

/-- Modelled from the spec (section 4.1): total frame count,
minutes*4500 + seconds*75 + frames. -/
def Time.total_frames (t : Time) : Nat :=
  t.minutes * 4500 + t.seconds * 75 + t.frames

/-- Modelled from the spec (section 4.1): rebuild a Time from a flat frame
count, normalizing seconds below 60 and frames below 75. -/
def Time.from_frames (n : Nat) : Time :=
  { minutes := n / 4500, seconds := n % 4500 / 75, frames := n % 4500 % 75 }

/-- Modelled from the spec (section 4.1): subtraction on the total-frame
representation (the Sub impl of the external Time type).  The caller must
guarantee the first operand is not smaller; the embedding truncates at zero
where the Rust u64 subtraction would underflow. -/
def Time.sub (a b : Time) : Time :=
  Time.from_frames (a.total_frames - b.total_frames)

/-- Modelled from the spec (section 6): file-format tags, a finite closed
tag set produced by the external tokenizer and treated as opaque here. -/
inductive FileFormat where
  | wave
  | binary
  | mp3
  | aiff
deriving DecidableEq, Repr

/-- Modelled from the spec (section 6): track-type tags, a finite closed
tag set produced by the external tokenizer and treated as opaque here. -/
inductive TrackType where
  | audio
  | mode1_2352
deriving DecidableEq, Repr

/-- Modelled from the spec (section 6): the directive values produced by the
external tokenizer (the Command enum of the parser module). -/
inductive Command where
  | catalog (code : String)
  | performer (name : String)
  | title (text : String)
  | rem (key value : String)
  | file (name : String) (format : FileFormat)
  | track (number : Nat) (track_type : TrackType)
  | pregap (length : Time)
  | index (number : Nat) (time : Time)
  | isrc (code : String)
deriving DecidableEq, Repr

/-- One track described by a tracklist (struct Track, tracklist.rs lines
194-220).  The index field holds pairs of index number and Time. -/
structure Track where
  title : Option String
  track_type : TrackType
  duration : Option Time
  index : List (Nat × Time)
  number : Nat
  performer : Option String
  isrc : Option String
deriving DecidableEq, Repr

/-- One file described by a tracklist (struct TrackFile, lines 139-149). -/
structure TrackFile where
  tracks : List Track
  name : String
  format : FileFormat
deriving DecidableEq, Repr

/-- The tracklist (struct Tracklist, lines 25-57).  discnumber and
totaldiscs are Option of u8 in the source, modelled as Option Nat with the
parse function enforcing the u8 bound. -/
structure Tracklist where
  catalog : Option String
  files : List TrackFile
  performer : Option String
  title : Option String
  genre : Option String
  date : Option String
  discid : Option String
  comment : Option String
  discnumber : Option Nat
  totaldiscs : Option Nat
deriving DecidableEq, Repr

/-- Modelled from the spec (section 4.4): the Rust str::parse::<u8> used at
lines 95 and 100, parsing a small unsigned integer.  Accepts an optional
leading plus sign followed by one or more decimal digits denoting a value
of at most 255; anything else fails. -/
def digitsToNat : List Char → Nat → Option Nat
  | [], acc => some acc
  | c :: cs, acc =>
    if c.isDigit then digitsToNat cs (acc * 10 + (c.toNat - 48)) else none

/-- Modelled from the spec (section 4.4): see digitsToNat. -/
def parseU8 (s : String) : Option Nat :=
  let cs :=
    match s.data with
    | '+' :: rest => rest
    | l => l
  match cs with
  | [] => none
  | _ :: _ =>
    match digitsToNat cs 0 with
    | some n => if n ≤ 255 then some n else none
    | none => none

/-- Modelled from the spec (section 4.4): Rust String::to_uppercase as used
on REM keys at line 89, restricted to the ASCII keys the dispatch compares
against. -/
def to_uppercase (s : String) : String :=
  String.mk (s.data.map Char.toUpper)

/-- The disc-level header fields accumulated by the local mutable variables
of Tracklist::parse (lines 64-72). -/
structure Header where
  catalog : Option String
  performer : Option String
  title : Option String
  genre : Option String
  date : Option String
  discid : Option String
  comment : Option String
  discnumber : Option Nat
  totaldiscs : Option Nat
deriving DecidableEq, Repr

/-- All header fields start out None (lines 64-72). -/
def Header.init : Header :=
  { catalog := none, performer := none, title := none, genre := none,
    date := none, discid := none, comment := none, discnumber := none,
    totaldiscs := none }

/-- The REM dispatch of Tracklist::parse (lines 88-105): match on the
uppercased key; DISCNUMBER and TOTALDISCS update only when the value parses
as a u8; unrecognized keys fall through leaving every field unchanged. -/
def applyRem (h : Header) (key value : String) : Header :=
  match to_uppercase key with
  | "GENRE" => { h with genre := some value }
  | "DATE" => { h with date := some value }
  | "DISCID" => { h with discid := some value }
  | "COMMENT" => { h with comment := some value }
  | "DISCNUMBER" =>
    match parseU8 value with
    | some x => { h with discnumber := some x }
    | none => h
  | "TOTALDISCS" =>
    match parseU8 value with
    | some x => { h with totaldiscs := some x }
    | none => h
  | _ => h

/-- The header consumption loop of Tracklist::parse (lines 74-112): consume
Catalog, Performer, Title and Rem directives from the front, last occurrence
winning, and stop at the first other directive, leaving it in place. -/
def headerLoop : List Command → Header → Header × List Command
  | [], h => (h, [])
  | c :: rest, h =>
    match c with
    | Command.catalog p => headerLoop rest { h with catalog := some p }
    | Command.performer p => headerLoop rest { h with performer := some p }
    | Command.title t => headerLoop rest { h with title := some t }
    | Command.rem t d => headerLoop rest (applyRem h t d)
    | _ => (h, c :: rest)

/-- The body loop of Track::consume (lines 232-269), with the four
accumulator variables title, performer, isrc and index.  On a Pregap
directive the next directive must be an Index; its time minus the pregap
length (on total frames) is appended as index entry 0 and the Pregap itself
is dropped, the Index being consumed normally on the next iteration.  On a
Pregap error the Rust function returns early with the commands vector
still holding the Pregap at the front, which the returned list reflects. -/
def trackBody : List Command → Option String → Option String → Option String →
    List (Nat × Time) →
    Except String (Option String × Option String × Option String × List (Nat × Time)) ×
      List Command
  | [], title, performer, isrc, index => (Except.ok (title, performer, isrc, index), [])
  | c :: rest, title, performer, isrc, index =>
    match c with
    | Command.performer p => trackBody rest title (some p) isrc index
    | Command.title t => trackBody rest (some t) performer isrc index
    | Command.isrc t => trackBody rest title performer (some t) index
    | Command.pregap time =>
      match rest with
      | [] =>
        (Except.error "Pregap is the last command in the track!",
          Command.pregap time :: rest)
      | next :: _ =>
        match next with
        | Command.index _ t =>
          trackBody rest title performer isrc
            (index ++ [(0, Time.from_frames (t.total_frames - time.total_frames))])
        | _ =>
          (Except.error "Pregap is not followed by an index!",
            Command.pregap time :: rest)
    | Command.index i t => trackBody rest title performer isrc (index ++ [(i, t)])
    | _ => (Except.ok (title, performer, isrc, index), c :: rest)

/-- Track::consume (lines 225-283).  The head command is removed before it
is inspected (commands.remove(0) at line 226), so on the ExpectedTrack error
path the head is gone from the returned list. -/
def Track.consume : List Command → Except String Track × List Command
  | [] =>
    -- Rust remove(0) on an empty Vec panics; both call sites guard on a
    -- non-empty vector, so this branch is unreachable from the loops below.
    (Except.error "index out of bounds: remove on empty vector", [])
  | c :: rest =>
    match c with
    | Command.track number track_type =>
      match trackBody rest none none none [] with
      | (Except.ok (title, performer, isrc, index), rem) =>
        (Except.ok
          { title := title, track_type := track_type, duration := none,
            index := index, number := number, performer := performer,
            isrc := isrc }, rem)
      | (Except.error e, rem) => (Except.error e, rem)
    | _ => (Except.error "Track::consume called but no Track command found.", rest)

/-- The per-track body of the TrackFile::consume loop (lines 159-177): if
the just-assembled track has indices, remember the time of its last index
entry as the new anchor, and if an anchor was set by the previous track,
write duration = first index time minus anchor into the previous track
(tracks.get_mut(tracks.len() - 1), a silent no-op when absent); a track
without indices clears the anchor.  The track itself is then pushed. -/
def fileStep (tracks : List Track) (last_time : Option Time) (track : Track) :
    List Track × Option Time :=
  match track.index with
  | [] => (tracks ++ [track], none)
  | x :: xs =>
    let time := List.getLast (x :: xs) (List.cons_ne_nil x xs)
    let tracks1 :=
      match last_time with
      | some start =>
        let stop := x.2
        let duration := Time.sub stop start
        let track_n := tracks.length
        match tracks.get? (track_n - 1) with
        | some last_track =>
          tracks.set (track_n - 1) { last_track with duration := some duration }
        | none => tracks
      | none => tracks
    (tracks1 ++ [track], some time.2)

/-- The track consumption loop of TrackFile::consume (lines 157-181),
embedded with explicit fuel; each successful Track::consume strictly
shortens the command list, so fuel equal to the list length reproduces the
Rust loop exactly.  A failing Track::consume breaks the loop, the command
list keeping the mutations the failed call performed. -/
def fileLoop : Nat → List Command → List Track → Option Time →
    List Track × List Command
  | 0, cmds, tracks, _ => (tracks, cmds)
  | _ + 1, [], tracks, _ => (tracks, [])
  | fuel + 1, c :: cs, tracks, last_time =>
    match Track.consume (c :: cs) with
    | (Except.ok track, rem) =>
      let s := fileStep tracks last_time track
      fileLoop fuel rem s.1 s.2
    | (Except.error _, rem) => (tracks, rem)

/-- TrackFile::consume (lines 152-190).  The head command is removed before
it is inspected (commands.remove(0) at line 153), so on the ExpectedFile
error path the head is gone from the returned list. -/
def TrackFile.consume : List Command → Except String TrackFile × List Command
  | [] =>
    -- Rust remove(0) on an empty Vec panics; the call site guards on a
    -- non-empty vector, so this branch is unreachable from the loop below.
    (Except.error "index out of bounds: remove on empty vector", [])
  | c :: rest =>
    match c with
    | Command.file name format =>
      let r := fileLoop rest.length rest [] none
      (Except.ok { tracks := r.1, name := name, format := format }, r.2)
    | _ =>
      (Except.error "TrackFile::consume called but no Track command found.", rest)

/-- The file consumption loop of Tracklist::parse (lines 114-121), with
fuel as for fileLoop: invoke TrackFile::consume while it succeeds; the
first failure breaks the loop silently, keeping the files collected so
far. -/
def filesLoop : Nat → List Command → List TrackFile → List TrackFile × List Command
  | 0, cmds, files => (files, cmds)
  | _ + 1, [], files => (files, [])
  | fuel + 1, c :: cs, files =>
    match TrackFile.consume (c :: cs) with
    | (Except.ok file, rem) => filesLoop fuel rem (files ++ [file])
    | (Except.error _, rem) => (files, rem)

/-- The assembly performed by Tracklist::parse after the external parser
produced the command list (lines 64-134): header loop, then file loop, then
the Tracklist record; assembly itself cannot fail. -/
def Tracklist.assemble (commands : List Command) : Tracklist :=
  let h := headerLoop commands Header.init
  let f := filesLoop h.2.length h.2 []
  { catalog := h.1.catalog, files := f.1, performer := h.1.performer,
    title := h.1.title, genre := h.1.genre, date := h.1.date,
    discid := h.1.discid, comment := h.1.comment,
    discnumber := h.1.discnumber, totaldiscs := h.1.totaldiscs }

/-- Tracklist::parse (lines 61-135) seen from its one fallible step: the
external parser result is the input (parser::parse_cue is outside the
assembler source), its error propagates via the question mark at line 62,
and every successfully parsed command list is assembled without error. -/
def Tracklist.parse (parsed : Except String (List Command)) : Except String Tracklist :=
  match parsed with
  | Except.error e => Except.error e
  | Except.ok commands => Except.ok (Tracklist.assemble commands)

/-! Helper predicates used to state the theorems. -/

/-- Whether a command is a TRACK directive. -/
def Command.isTrack : Command → Bool
  | Command.track _ _ => true
  | _ => false

/-- Whether a command is a FILE directive. -/
def Command.isFile : Command → Bool
  | Command.file _ _ => true
  | _ => false

/-- Whether an Except value is an error. -/
def isErr {α : Type} : Except String α → Bool
  | Except.error _ => true
  | Except.ok _ => false

/-- The duration the inference algorithm is expected to leave on a track
given the following track: first index time of the follower minus last
index time of the track itself, absent when either list is empty. -/
def expectedDuration (ti tj : Track) : Option Time :=
  match tj.index.head?, ti.index.getLast? with
  | some s, some l => some (Time.sub s.2 l.2)
  | _, _ => none

/-- The adjacent-pair duration relation between consecutive tracks. -/
def durR (ti tj : Track) : Prop :=
  ti.duration = expectedDuration ti tj

/-- The running anchor of TrackFile::consume as a function of the tracks
assembled so far: the time of the last index entry of the last track. -/
def anchorOf (tracks : List Track) : Option Time :=
  match tracks.getLast? with
  | some tr => Option.map (fun x => x.2) tr.index.getLast?
  | none => none

/-- The last assembled track carries no duration. -/
def lastNoneP (tracks : List Track) : Prop :=
  ∀ tr, tracks.getLast? = some tr → tr.duration = none

/-- Formalization of the spec condition of the MissingIndexAfterPregap
error, read over the greedy track run exactly as the Track Assembler scans
it: some PREGAP directive in the run is the last remaining directive or is
not immediately followed by an INDEX directive. -/
def pregapViolation : List Command → Bool
  | [] => false
  | Command.performer _ :: rest => pregapViolation rest
  | Command.title _ :: rest => pregapViolation rest
  | Command.isrc _ :: rest => pregapViolation rest
  | Command.index _ _ :: rest => pregapViolation rest
  | Command.pregap _ :: [] => true
  | Command.pregap _ :: Command.index i t :: rest =>
    pregapViolation (Command.index i t :: rest)
  | Command.pregap _ :: _ :: _ => true
  | _ => false

/-- Instrumentation for the get_mut at tracklist.rs line 167: true exactly
when the body of the track loop reaches the duration assignment (non-empty
index list and a set anchor) but the lookup of the previous track comes up
empty, which in the source is the silent miss of the assignment (and, for
the index computation, the underflow of tracks.len() - 1). -/
def stepMiss (tracks : List Track) (last_time : Option Time) (track : Track) : Bool :=
  match track.index with
  | [] => false
  | _ :: _ =>
    match last_time with
    | some _ => (tracks.get? (tracks.length - 1)).isNone
    | none => false

/-- fileLoop instrumented with the stepMiss flag, accumulated over the
whole run; the first component is exactly the fileLoop result. -/
def fileLoopChecked : Nat → List Command → List Track → Option Time →
    (List Track × List Command) × Bool
  | 0, cmds, tracks, _ => ((tracks, cmds), false)
  | _ + 1, [], tracks, _ => ((tracks, []), false)
  | fuel + 1, c :: cs, tracks, last_time =>
    match Track.consume (c :: cs) with
    | (Except.ok track, rem) =>
      let s := fileStep tracks last_time track
      let r := fileLoopChecked fuel rem s.1 s.2
      (r.1, stepMiss tracks last_time track || r.2)
    | (Except.error _, rem) => ((tracks, rem), false)

/-! Concrete directive sequences used by the per-claim witnesses and
counterexamples. -/

/-- Two FILE directives, each followed by a one-track run. -/
def c1_input : List Command :=
  [Command.file "f1.wav" FileFormat.wave,
   Command.track 1 TrackType.audio,
   Command.index 1 (Time.mk 0 0 0),
   Command.file "f2.wav" FileFormat.wave,
   Command.track 1 TrackType.audio,
   Command.index 1 (Time.mk 0 0 0)]

/-- The pregap fixture track of the spec: TRACK 02 AUDIO / PREGAP 00:02:00
/ INDEX 01 58:41:36. -/
def c2_input : List Command :=
  [Command.track 2 TrackType.audio,
   Command.pregap (Time.mk 0 2 0),
   Command.index 1 (Time.mk 58 41 36)]

/-- A two-track file echoing the worked example: track 1 with a single
index at 00:00:00 and track 2 whose first index is 05:47:50. -/
def c4_input : List Command :=
  [Command.file "f.flac" FileFormat.wave,
   Command.track 1 TrackType.audio,
   Command.index 1 (Time.mk 0 0 0),
   Command.track 2 TrackType.audio,
   Command.index 1 (Time.mk 5 47 50)]

/-- Track 1 of c4_input after assembly: its duration was inferred. -/
def c4_track1 : Track :=
  { title := none, track_type := TrackType.audio,
    duration := some (Time.mk 5 47 50), index := [(1, Time.mk 0 0 0)],
    number := 1, performer := none, isrc := none }

/-- Track 2 of c4_input after assembly: final track, no duration. -/
def c4_track2 : Track :=
  { title := none, track_type := TrackType.audio, duration := none,
    index := [(1, Time.mk 5 47 50)], number := 2, performer := none,
    isrc := none }

/-- The assembled file for c4_input. -/
def c4_file : TrackFile :=
  { tracks := [c4_track1, c4_track2], name := "f.flac", format := FileFormat.wave }

/-- A two-track file whose final track would have a determinable length
only with a following track. -/
def c5_input : List Command :=
  [Command.file "g.wav" FileFormat.wave,
   Command.track 1 TrackType.audio,
   Command.index 1 (Time.mk 0 0 0),
   Command.track 2 TrackType.audio,
   Command.index 0 (Time.mk 2 0 0),
   Command.index 1 (Time.mk 2 2 0)]

/-- Track 1 of c5_input after assembly. -/
def c5_track1 : Track :=
  { title := none, track_type := TrackType.audio,
    duration := some (Time.mk 2 0 0), index := [(1, Time.mk 0 0 0)],
    number := 1, performer := none, isrc := none }

/-- Track 2 of c5_input after assembly: final track, no duration. -/
def c5_track2 : Track :=
  { title := none, track_type := TrackType.audio, duration := none,
    index := [(0, Time.mk 2 0 0), (1, Time.mk 2 2 0)], number := 2,
    performer := none, isrc := none }

/-- The assembled file for c5_input. -/
def c5_file : TrackFile :=
  { tracks := [c5_track1, c5_track2], name := "g.wav", format := FileFormat.wave }

/-- Three tracks, the middle one without any INDEX directive. -/
def c6_input : List Command :=
  [Command.file "h.wav" FileFormat.wave,
   Command.track 1 TrackType.audio,
   Command.index 1 (Time.mk 0 0 0),
   Command.track 2 TrackType.audio,
   Command.track 3 TrackType.audio,
   Command.index 1 (Time.mk 3 0 0)]

/-- Track 1 of c6_input after assembly: no duration, although it has an
index, because the following track has none. -/
def c6_track1 : Track :=
  { title := none, track_type := TrackType.audio, duration := none,
    index := [(1, Time.mk 0 0 0)], number := 1, performer := none,
    isrc := none }

/-- Track 2 of c6_input after assembly: the index-less middle track. -/
def c6_track2 : Track :=
  { title := none, track_type := TrackType.audio, duration := none,
    index := [], number := 2, performer := none, isrc := none }

/-- Track 3 of c6_input after assembly: final track, no duration. -/
def c6_track3 : Track :=
  { title := none, track_type := TrackType.audio, duration := none,
    index := [(1, Time.mk 3 0 0)], number := 3, performer := none,
    isrc := none }

/-- The assembled file for c6_input. -/
def c6_file : TrackFile :=
  { tracks := [c6_track1, c6_track2, c6_track3], name := "h.wav",
    format := FileFormat.wave }

/-- A sequence whose second track has a PREGAP not followed by an INDEX,
so its TrackFile consumption fails with MissingIndexAfterPregap. -/
def c8_input : List Command :=
  [Command.file "a.wav" FileFormat.wave,
   Command.track 1 TrackType.audio,
   Command.index 1 (Time.mk 0 0 0),
   Command.track 2 TrackType.audio,
   Command.pregap (Time.mk 0 2 0),
   Command.title "x"]

/-- C1, counterexample.  The claim states that the directive stopping the
track-consumption loop is left unconsumed at the cursor and that a
sequence with two FILE directives, each followed by a TRACK run, yields
two TrackFiles.  On the code the stopping FILE directive is removed by the
failed Track::consume: consuming the first file of a sequence that ends
with a second FILE directive leaves an empty remainder, and assembling the
two-file sequence c1_input yields a single TrackFile, not two. -/
theorem c1_counterexample :
    (TrackFile.consume
      [Command.file "f1.wav" FileFormat.wave,
       Command.track 1 TrackType.audio,
       Command.index 1 (Time.mk 0 0 0),
       Command.file "f2.wav" FileFormat.wave]).2 = []
    ∧ (Tracklist.assemble c1_input).files.length = 1
    ∧ (Tracklist.assemble c1_input).files.length ≠ 2 := by
  refine ⟨rfl, rfl, ?_⟩
  decide

/-- C1, amended.  When the track-consumption loop of the File Assembler
stops because the head directive is not a TRACK directive, that directive
has already been consumed by the failed Track::consume and is lost from
the cursor; consequently a directive sequence with two FILE directives,
each followed by a TRACK run, assembles to a Tracklist holding only the
first TrackFile. -/
theorem c1_amended :
    (∀ c rest, c.isTrack = false →
      (Track.consume (c :: rest)).2 = rest
      ∧ isErr (Track.consume (c :: rest)).1 = true)
    ∧ (Tracklist.assemble c1_input).files.map TrackFile.name = ["f1.wav"] := by
  constructor
  · intro c rest h
    cases c <;> first | exact ⟨rfl, rfl⟩ | simp [Command.isTrack] at h
  · rfl

/-- C1, witness for the amended theorem: the second FILE directive of
c1_input, seen by Track::consume, is removed and the call errors. -/
theorem c1_witness :
    (Track.consume [Command.file "f2.wav" FileFormat.wave]).2 = ([] : List Command)
    ∧ isErr (Track.consume [Command.file "f2.wav" FileFormat.wave]).1 = true :=
  c1_amended.1 (Command.file "f2.wav" FileFormat.wave) [] (by decide)

/-- C2.  A PREGAP directive immediately followed by an INDEX directive
with time t makes the Track Assembler append the synthesized index entry
(0, subtract(t, length)) and then consume that INDEX normally (first
conjunct, the exact loop step); on the fixture TRACK 02 AUDIO /
PREGAP 00:02:00 / INDEX 01 58:41:36 the index list of the track comes out
as [(0, Time(58,39,36)), (1, Time(58,41,36))] (second conjunct). -/
theorem c2 :
    (∀ len n tm rest ti pf ic idx,
      trackBody (Command.pregap len :: Command.index n tm :: rest) ti pf ic idx
        = trackBody (Command.index n tm :: rest) ti pf ic
            (idx ++ [(0, Time.sub tm len)]))
    ∧ Track.consume c2_input
        = (Except.ok
            { title := none, track_type := TrackType.audio, duration := none,
              index := [(0, Time.mk 58 39 36), (1, Time.mk 58 41 36)],
              number := 2, performer := none, isrc := none }, []) := by
  exact ⟨fun len n tm rest ti pf ic idx => rfl, rfl⟩

/-- C7.  During header consumption a REM directive is always consumed and
dispatched on its uppercased key: GENRE, DATE, DISCID and COMMENT set the
matching string field; DISCNUMBER and TOTALDISCS set their field exactly
when the value parses as a small unsigned integer and leave it unchanged
otherwise; any other key changes nothing; concretely, REM DISCNUMBER abc
leaves discnumber None while REM DISCNUMBER 2 sets it to 2. -/
theorem c7 :
    (∀ h k d rest, headerLoop (Command.rem k d :: rest) h = headerLoop rest (applyRem h k d))
    ∧ (∀ h k d, to_uppercase k = "GENRE" → applyRem h k d = { h with genre := some d })
    ∧ (∀ h k d, to_uppercase k = "DATE" → applyRem h k d = { h with date := some d })
    ∧ (∀ h k d, to_uppercase k = "DISCID" → applyRem h k d = { h with discid := some d })
    ∧ (∀ h k d, to_uppercase k = "COMMENT" → applyRem h k d = { h with comment := some d })
    ∧ (∀ h k d x, to_uppercase k = "DISCNUMBER" → parseU8 d = some x →
        applyRem h k d = { h with discnumber := some x })
    ∧ (∀ h k d, to_uppercase k = "DISCNUMBER" → parseU8 d = none → applyRem h k d = h)
    ∧ (∀ h k d x, to_uppercase k = "TOTALDISCS" → parseU8 d = some x →
        applyRem h k d = { h with totaldiscs := some x })
    ∧ (∀ h k d, to_uppercase k = "TOTALDISCS" → parseU8 d = none → applyRem h k d = h)
    ∧ (∀ h k d, to_uppercase k ∉
        (["GENRE", "DATE", "DISCID", "COMMENT", "DISCNUMBER", "TOTALDISCS"] : List String) →
        applyRem h k d = h)
    ∧ applyRem Header.init "DISCNUMBER" "abc" = Header.init
    ∧ (applyRem Header.init "DISCNUMBER" "2").discnumber = some 2 := by
  refine ⟨fun h k d rest => rfl, ?_, ?_, ?_, ?_, ?_, ?_, ?_, ?_, ?_, by decide, by decide⟩
  · intro h k d hk; simp [applyRem, hk]
  · intro h k d hk; simp [applyRem, hk]
  · intro h k d hk; simp [applyRem, hk]
  · intro h k d hk; simp [applyRem, hk]
  · intro h k d x hk hp; simp [applyRem, hk, hp]
  · intro h k d hk hp; simp [applyRem, hk, hp]
  · intro h k d x hk hp; simp [applyRem, hk, hp]
  · intro h k d hk hp; simp [applyRem, hk, hp]
  · intro h k d hk
    unfold applyRem
    split <;> simp_all

/-- C7, witness: a mixed-case GENRE key concretely sets the genre field. -/
theorem c7_witness :
    applyRem Header.init "GeNrE" "Rock" = { Header.init with genre := some "Rock" } :=
  c7.2.1 Header.init "GeNrE" "Rock" (by decide)

/-- C8.  Every directive sequence accepted by the upstream parser is
assembled into a success value (first conjunct); a failing
TrackFile::consume, whatever the wrapped error, only stops the
file-consumption loop, which returns the files accumulated so far (second
conjunct); concretely, c8_input embeds a MissingIndexAfterPregap failure
in its second track, the failure is not surfaced, and the caller receives
the one-track file assembled before it (remaining conjuncts). -/
theorem c8 :
    (∀ cmds, Tracklist.parse (Except.ok cmds) = Except.ok (Tracklist.assemble cmds))
    ∧ (∀ fuel c cs files e rem,
        TrackFile.consume (c :: cs) = (Except.error e, rem) →
        filesLoop (fuel + 1) (c :: cs) files = (files, rem))
    ∧ isErr (Track.consume
        [Command.track 2 TrackType.audio, Command.pregap (Time.mk 0 2 0),
         Command.title "x"]).1 = true
    ∧ (Tracklist.assemble c8_input).files.map (fun f => f.tracks.length) = [1]
    ∧ Tracklist.parse (Except.ok c8_input)
        = Except.ok (Tracklist.assemble c8_input) := by
  refine ⟨fun cmds => rfl, ?_, rfl, rfl, rfl⟩
  intro fuel c cs files e rem h
  simp only [filesLoop]
  rw [h]

/-- C8, witness: the loop-stop conjunct applied to a concrete failing
TrackFile::consume call. -/
theorem c8_witness :
    filesLoop 1 [Command.title "x"] [] = ([], []) :=
  c8.2.1 0 (Command.title "x") [] []
    "TrackFile::consume called but no Track command found." [] (by rfl)

/-- C10.  The ExpectedTrack and ExpectedFile error paths are not atomic:
both Track::consume and TrackFile::consume remove the head directive
before inspecting it, so when the head is not a TRACK (resp. FILE)
directive the call errors and the returned command list no longer holds
that directive. -/
theorem c10 :
    ∀ c rest,
      (c.isTrack = false →
        Track.consume (c :: rest)
          = (Except.error "Track::consume called but no Track command found.", rest))
      ∧ (c.isFile = false →
        TrackFile.consume (c :: rest)
          = (Except.error "TrackFile::consume called but no Track command found.", rest)) := by
  intro c rest
  constructor
  · intro h
    cases c <;> first | rfl | simp [Command.isTrack] at h
  · intro h
    cases c <;> first | rfl | simp [Command.isFile] at h

/-- C10, witness: a PERFORMER head is consumed and lost by both failing
consume functions. -/
theorem c10_witness :
    Track.consume [Command.performer "X"]
      = (Except.error "Track::consume called but no Track command found.", [])
    ∧ TrackFile.consume [Command.performer "X"]
      = (Except.error "TrackFile::consume called but no Track command found.", []) :=
  ⟨(c10 (Command.performer "X") []).1 (by decide),
   (c10 (Command.performer "X") []).2 (by decide)⟩

/-- The track body loop errors exactly on the runs with a misplaced
PREGAP directive, scanned greedily, independently of the accumulators. -/
theorem trackBody_isErr : ∀ cs ti pf ic idx,
    isErr (trackBody cs ti pf ic idx).1 = pregapViolation cs := by
  intro cs
  induction cs with
  | nil => intro ti pf ic idx; rfl
  | cons c rest ih =>
    intro ti pf ic idx
    cases c with
    | catalog p => rfl
    | performer p => exact ih _ _ _ _
    | title t => exact ih _ _ _ _
    | rem k v => rfl
    | file n f => rfl
    | track n t => rfl
    | pregap len =>
      cases rest with
      | nil => rfl
      | cons next rest2 =>
        cases next with
        | catalog p => rfl
        | performer p => rfl
        | title t => rfl
        | rem k v => rfl
        | file n f => rfl
        | track n t => rfl
        | pregap l2 => rfl
        | index n tm => exact ih _ _ _ _
        | isrc s => rfl
    | index n tm => exact ih _ _ _ _
    | isrc s => exact ih _ _ _ _

/-- The only error messages the track body loop can produce are the two
MissingIndexAfterPregap messages. -/
theorem trackBody_error_msg : ∀ cs ti pf ic idx e,
    (trackBody cs ti pf ic idx).1 = Except.error e →
    e = "Pregap is the last command in the track!"
    ∨ e = "Pregap is not followed by an index!" := by
  intro cs
  induction cs with
  | nil => intro ti pf ic idx e h; exact absurd h (by simp [trackBody])
  | cons c rest ih =>
    intro ti pf ic idx e h
    cases c with
    | catalog p => exact absurd h (by simp [trackBody])
    | performer p => exact ih _ _ _ _ e h
    | title t => exact ih _ _ _ _ e h
    | rem k v => exact absurd h (by simp [trackBody])
    | file n f => exact absurd h (by simp [trackBody])
    | track n t => exact absurd h (by simp [trackBody])
    | pregap len =>
      cases rest with
      | nil =>
        left
        have h2 : Except.error "Pregap is the last command in the track!"
            = Except.error (ε := String)
              (α := Option String × Option String × Option String × List (Nat × Time)) e := h
        injection h2 with h2
        exact h2.symm
      | cons next rest2 =>
        cases next with
        | index n tm => exact ih _ _ _ _ e h
        | catalog p =>
          right
          have h2 : Except.error "Pregap is not followed by an index!"
              = Except.error (ε := String)
                (α := Option String × Option String × Option String × List (Nat × Time)) e := h
          injection h2 with h2
          exact h2.symm
        | performer p =>
          right
          have h2 : Except.error "Pregap is not followed by an index!"
              = Except.error (ε := String)
                (α := Option String × Option String × Option String × List (Nat × Time)) e := h
          injection h2 with h2
          exact h2.symm
        | title t =>
          right
          have h2 : Except.error "Pregap is not followed by an index!"
              = Except.error (ε := String)
                (α := Option String × Option String × Option String × List (Nat × Time)) e := h
          injection h2 with h2
          exact h2.symm
        | rem k v =>
          right
          have h2 : Except.error "Pregap is not followed by an index!"
              = Except.error (ε := String)
                (α := Option String × Option String × Option String × List (Nat × Time)) e := h
          injection h2 with h2
          exact h2.symm
        | file n f =>
          right
          have h2 : Except.error "Pregap is not followed by an index!"
              = Except.error (ε := String)
                (α := Option String × Option String × Option String × List (Nat × Time)) e := h
          injection h2 with h2
          exact h2.symm
        | track n t =>
          right
          have h2 : Except.error "Pregap is not followed by an index!"
              = Except.error (ε := String)
                (α := Option String × Option String × Option String × List (Nat × Time)) e := h
          injection h2 with h2
          exact h2.symm
        | pregap l2 =>
          right
          have h2 : Except.error "Pregap is not followed by an index!"
              = Except.error (ε := String)
                (α := Option String × Option String × Option String × List (Nat × Time)) e := h
          injection h2 with h2
          exact h2.symm
        | isrc s =>
          right
          have h2 : Except.error "Pregap is not followed by an index!"
              = Except.error (ε := String)
                (α := Option String × Option String × Option String × List (Nat × Time)) e := h
          injection h2 with h2
          exact h2.symm
    | index n tm => exact ih _ _ _ _ e h
    | isrc s => exact ih _ _ _ _ e h

/-- C3.  The whole track consumption errors exactly when the directive run of the track, scanned greedily, holds a PREGAP directive that is the
last remaining directive or is not immediately followed by an INDEX
directive (first conjunct); and every track-consumption error starting
from a TRACK head carries one of the two MissingIndexAfterPregap
messages (second conjunct). -/
theorem c3 : ∀ num tt cs,
    isErr (Track.consume (Command.track num tt :: cs)).1 = pregapViolation cs
    ∧ (∀ e, (Track.consume (Command.track num tt :: cs)).1 = Except.error e →
        e = "Pregap is the last command in the track!"
        ∨ e = "Pregap is not followed by an index!") := by
  intro num tt cs
  have hb := trackBody_isErr cs none none none []
  constructor
  · rcases h : trackBody cs none none none [] with ⟨res, rem⟩
    rw [h] at hb
    cases res with
    | ok r =>
      obtain ⟨a, b, c2, d2⟩ := r
      simp only [Track.consume]
      rw [h]
      exact hb
    | error e =>
      simp only [Track.consume]
      rw [h]
      exact hb
  · intro e he
    rcases h : trackBody cs none none none [] with ⟨res, rem⟩
    cases res with
    | ok r =>
      obtain ⟨a, b, c2, d2⟩ := r
      simp only [Track.consume] at he
      rw [h] at he
      exact absurd he (by simp)
    | error e0 =>
      simp only [Track.consume] at he
      rw [h] at he
      have he2 : Except.error (ε := String) (α := Track) e0 = Except.error e := he
      injection he2 with he2
      rw [← he2]
      exact trackBody_error_msg cs none none none [] e0 (by rw [h])

/-- C3, witness: a track whose PREGAP is the last directive of the run
errors, and its message is one of the two MissingIndexAfterPregap
messages. -/
theorem c3_witness :
    isErr (Track.consume
      [Command.track 2 TrackType.audio, Command.pregap (Time.mk 0 2 0)]).1
      = pregapViolation [Command.pregap (Time.mk 0 2 0)]
    ∧ ("Pregap is the last command in the track!"
          = "Pregap is the last command in the track!"
        ∨ "Pregap is the last command in the track!"
          = "Pregap is not followed by an index!") :=
  ⟨(c3 2 TrackType.audio [Command.pregap (Time.mk 0 2 0)]).1,
   (c3 2 TrackType.audio [Command.pregap (Time.mk 0 2 0)]).2
     "Pregap is the last command in the track!" (by rfl)⟩

/-- A non-empty track list always resolves the lookup of its last
element. -/
theorem tracks_get_last_isSome (tracks : List Track) (h : tracks ≠ []) :
    (tracks.get? (tracks.length - 1)).isNone = false := by
  cases tracks with
  | nil => exact absurd rfl h
  | cons t ts =>
    have hlt : (t :: ts).length - 1 < (t :: ts).length := by
      simp only [List.length_cons]
      omega
    rw [List.get?_eq_get hlt]
    rfl

/-- The track loop body always pushes the new track, so its output track
list is never empty. -/
theorem fileStep_fst_ne_nil (tracks : List Track) (lt : Option Time) (track : Track) :
    (fileStep tracks lt track).1 ≠ [] := by
  cases h : track.index with
  | nil => simp [fileStep, h]
  | cons x xs =>
    cases lt with
    | none => simp [fileStep, h]
    | some s => simp [fileStep, h]

/-- When the anchor can only be set with at least one assembled track, the
duration-assignment lookup cannot miss. -/
theorem stepMiss_false (tracks : List Track) (lt : Option Time) (track : Track)
    (h : lt = none ∨ tracks ≠ []) : stepMiss tracks lt track = false := by
  cases hidx : track.index with
  | nil => simp [stepMiss, hidx]
  | cons x xs =>
    cases lt with
    | none => simp [stepMiss, hidx]
    | some s =>
      rcases h with h | h
      · exact absurd h (by simp)
      · simp only [stepMiss, hidx]
        exact tracks_get_last_isSome tracks h

/-- The instrumented loop computes exactly the fileLoop result. -/
theorem fileLoopChecked_fst : ∀ fuel cmds tracks lt,
    (fileLoopChecked fuel cmds tracks lt).1 = fileLoop fuel cmds tracks lt := by
  intro fuel
  induction fuel with
  | zero => intro cmds tracks lt; rfl
  | succ n ih =>
    intro cmds tracks lt
    cases cmds with
    | nil => rfl
    | cons c cs =>
      rcases htc : Track.consume (c :: cs) with ⟨res, rem⟩
      cases res with
      | error e =>
        simp only [fileLoopChecked, fileLoop]
        rw [htc]
      | ok track =>
        simp only [fileLoopChecked, fileLoop]
        rw [htc]
        exact ih rem _ _

/-- Starting from a state where a set anchor guarantees a previous track,
the instrumented loop never raises the miss flag. -/
theorem fileLoopChecked_flag : ∀ fuel cmds tracks lt,
    (lt = none ∨ tracks ≠ []) → (fileLoopChecked fuel cmds tracks lt).2 = false := by
  intro fuel
  induction fuel with
  | zero => intro cmds tracks lt _; rfl
  | succ n ih =>
    intro cmds tracks lt h
    cases cmds with
    | nil => rfl
    | cons c cs =>
      rcases htc : Track.consume (c :: cs) with ⟨res, rem⟩
      cases res with
      | error e =>
        simp only [fileLoopChecked]
        rw [htc]
      | ok track =>
        simp only [fileLoopChecked]
        rw [htc]
        show (stepMiss tracks lt track
          || (fileLoopChecked n rem (fileStep tracks lt track).1
                (fileStep tracks lt track).2).2) = false
        rw [Bool.or_eq_false_iff]
        exact ⟨stepMiss_false tracks lt track h,
          ih rem _ _ (Or.inr (fileStep_fst_ne_nil tracks lt track))⟩

/-- C9.  In the duration-inference loop, whenever the anchor is set the
assembled track list is already non-empty, so the lookup of the previous
track (tracks.get_mut at tracks.len() - 1) never misses: instrumenting
the loop with a flag that records a reached duration-assignment whose
previous-track lookup fails shows the flag never rises on any run started
from the initial state of the File Assembler (second conjunct), the
instrumented loop computing exactly the fileLoop result (first
conjunct). -/
theorem c9 :
    (∀ fuel cmds tracks lt,
      (fileLoopChecked fuel cmds tracks lt).1 = fileLoop fuel cmds tracks lt)
    ∧ (∀ fuel cmds, (fileLoopChecked fuel cmds [] none).2 = false) :=
  ⟨fileLoopChecked_fst, fun fuel cmds => fileLoopChecked_flag fuel cmds [] none (Or.inl rfl)⟩

/-- A follower without index entries forces an absent expected duration. -/
theorem expectedDuration_right_nil (ti tj : Track) (h : tj.index = []) :
    expectedDuration ti tj = none := by
  simp [expectedDuration, h]

/-- A track without index entries has an absent expected duration. -/
theorem expectedDuration_left_nil (ti tj : Track) (h : ti.index = []) :
    expectedDuration ti tj = none := by
  cases h2 : tj.index.head? <;> simp [expectedDuration, h, h2]

/-- With both boundary index entries present the expected duration is
their difference. -/
theorem expectedDuration_some (ti tj : Track) (s l : Nat × Time)
    (hs : tj.index.head? = some s) (hl : ti.index.getLast? = some l) :
    expectedDuration ti tj = some (Time.sub s.2 l.2) := by
  simp [expectedDuration, hs, hl]

/-- Setting the position right before an appended element rewrites that
last element. -/
theorem set_concat_length {α : Type} (l : List α) (a b : α) :
    (l ++ [a]).set l.length b = l ++ [b] := by
  induction l with
  | nil => rfl
  | cons x xs ih =>
    simp only [List.cons_append, List.length_cons, List.set_cons_succ, ih]

/-- A list whose getLast? is some a splits as a list with a appended. -/
theorem getLast?_eq_some_split {α : Type} (l : List α) (a : α)
    (h : l.getLast? = some a) : ∃ l2, l = l2 ++ [a] := by
  have hne : l ≠ [] := by
    intro hc
    rw [hc] at h
    exact Option.noConfusion h
  have h2 := List.getLast?_eq_getLast l hne
  rw [h] at h2
  injection h2 with h2
  exact ⟨l.dropLast, by rw [h2]; exact (List.dropLast_concat_getLast hne).symm⟩

/-- The anchor of a list with an appended track is the time of that
last index entry of that track. -/
theorem anchorOf_concat (tracks : List Track) (track : Track) :
    anchorOf (tracks ++ [track])
      = Option.map (fun x => x.2) track.index.getLast? := by
  unfold anchorOf
  rw [List.getLast?_concat]

/-- An absent anchor over a non-empty track list means the last track has
no index entries. -/
theorem anchorOf_eq_none (tracks : List Track) (tr : Track)
    (hgl : tracks.getLast? = some tr) (h : anchorOf tracks = none) :
    tr.index.getLast? = none := by
  unfold anchorOf at h
  rw [hgl] at h
  exact Option.map_eq_none'.mp h

/-- A present anchor comes from the last index entry of the last track. -/
theorem anchorOf_eq_some (tracks : List Track) (tr : Track) (t : Time)
    (hgl : tracks.getLast? = some tr) (h : anchorOf tracks = some t) :
    ∃ l, tr.index.getLast? = some l ∧ l.2 = t := by
  unfold anchorOf at h
  rw [hgl] at h
  exact Option.map_eq_some'.mp h

/-- Track::consume always returns a track with duration none. -/
theorem Track.consume_duration (cmds : List Command) (tr : Track)
    (rem : List Command) (h : Track.consume cmds = (Except.ok tr, rem)) :
    tr.duration = none := by
  cases cmds with
  | nil => exact absurd h (by simp [Track.consume])
  | cons c rest =>
    cases c with
    | track number track_type =>
      simp only [Track.consume] at h
      rcases hb : trackBody rest none none none [] with ⟨res, rem2⟩
      rw [hb] at h
      cases res with
      | error e => exact absurd h (by simp)
      | ok r =>
        obtain ⟨a, b, c2, d2⟩ := r
        injection h with h1 h2
        injection h1 with h1
        rw [← h1]
    | catalog p => exact absurd h (by simp [Track.consume])
    | performer p => exact absurd h (by simp [Track.consume])
    | title t => exact absurd h (by simp [Track.consume])
    | rem k v => exact absurd h (by simp [Track.consume])
    | file n f => exact absurd h (by simp [Track.consume])
    | pregap l2 => exact absurd h (by simp [Track.consume])
    | index n tm => exact absurd h (by simp [Track.consume])
    | isrc s => exact absurd h (by simp [Track.consume])

/-- The loop body preserves the duration invariant: the adjacent-pair
duration relation holds along the assembled tracks, the last track has no
duration, and the anchor is determined by the assembled tracks. -/
theorem fileStep_inv (tracks : List Track) (lt : Option Time) (track : Track)
    (h1 : List.Chain' durR tracks) (h2 : lastNoneP tracks)
    (h3 : lt = anchorOf tracks) (hd : track.duration = none) :
    List.Chain' durR (fileStep tracks lt track).1
    ∧ lastNoneP (fileStep tracks lt track).1
    ∧ (fileStep tracks lt track).2 = anchorOf (fileStep tracks lt track).1 := by
  cases hidx : track.index with
  | nil =>
    refine ⟨?_, ?_, ?_⟩
    · simp only [fileStep, hidx]
      refine List.Chain'.append h1 (List.chain'_singleton track) ?_
      intro a ha y hy
      simp only [List.head?_cons, Option.mem_def, Option.some.injEq] at hy
      subst hy
      have had := h2 a ha
      unfold durR
      rw [had, expectedDuration_right_nil a track hidx]
    · simp only [fileStep, hidx]
      intro tr htr
      rw [List.getLast?_concat] at htr
      injection htr with htr
      rw [← htr]
      exact hd
    · simp only [fileStep, hidx]
      rw [anchorOf_concat, hidx]
      rfl
  | cons x xs =>
    cases lt with
    | none =>
      refine ⟨?_, ?_, ?_⟩
      · simp only [fileStep, hidx]
        refine List.Chain'.append h1 (List.chain'_singleton track) ?_
        intro a ha y hy
        simp only [List.head?_cons, Option.mem_def, Option.some.injEq] at hy
        subst hy
        have ha2 : tracks.getLast? = some a := ha
        have hnone := anchorOf_eq_none tracks a ha2 h3.symm
        rw [List.getLast?_eq_none_iff] at hnone
        have had := h2 a ha
        unfold durR
        rw [had, expectedDuration_left_nil a track hnone]
      · simp only [fileStep, hidx]
        intro tr htr
        rw [List.getLast?_concat] at htr
        injection htr with htr
        rw [← htr]
        exact hd
      · simp only [fileStep, hidx]
        rw [anchorOf_concat, hidx,
          List.getLast?_eq_getLast (x :: xs) (List.cons_ne_nil x xs)]
        rfl
    | some start =>
      rcases hgl : tracks.getLast? with _ | tr_old
      · exfalso
        rw [List.getLast?_eq_none_iff] at hgl
        subst hgl
        exact Option.noConfusion h3
      · obtain ⟨l0, hl0, hl0t⟩ := anchorOf_eq_some tracks tr_old start hgl h3.symm
        obtain ⟨dl, rfl⟩ := getLast?_eq_some_split tracks tr_old hgl
        have hlen : (dl ++ [tr_old]).length - 1 = dl.length := by
          simp
        have hget : (dl ++ [tr_old]).get? ((dl ++ [tr_old]).length - 1)
            = some tr_old := by
          rw [hlen, List.get?_eq_getElem?]
          exact List.getElem?_concat_length dl tr_old
        have hset : (dl ++ [tr_old]).set ((dl ++ [tr_old]).length - 1)
              { tr_old with duration := some (Time.sub x.2 start) }
            = dl ++ [{ tr_old with duration := some (Time.sub x.2 start) }] := by
          rw [hlen]
          exact set_concat_length dl tr_old _
        have hfs : fileStep (dl ++ [tr_old]) (some start) track
            = ((dl ++ [{ tr_old with duration := some (Time.sub x.2 start) }])
                ++ [track],
               some (((x :: xs).getLast (List.cons_ne_nil x xs)).2)) := by
          simp only [fileStep, hidx, hget, hset]
        rw [hfs]
        obtain ⟨hc1, hc2, hbnd⟩ := List.chain'_append.mp h1
        refine ⟨?_, ?_, ?_⟩
        · refine List.Chain'.append ?_ (List.chain'_singleton track) ?_
          · refine List.Chain'.append hc1 (List.chain'_singleton _) ?_
            intro a ha y hy
            simp only [List.head?_cons, Option.mem_def, Option.some.injEq] at hy
            subst hy
            exact hbnd a ha tr_old rfl
          · intro a ha y hy
            simp only [List.head?_cons, Option.mem_def, Option.some.injEq] at hy
            subst hy
            have ha2 : (dl ++ [{ tr_old with duration := some (Time.sub x.2 start) }]).getLast?
                = some a := ha
            rw [List.getLast?_concat] at ha2
            injection ha2 with ha2
            rw [← ha2]
            unfold durR
            have hhd : track.index.head? = some x := by
              rw [hidx]
              rfl
            have hl0b : ({ tr_old with duration := some (Time.sub x.2 start) }
                : Track).index.getLast? = some l0 := hl0
            rw [expectedDuration_some _ track x l0 hhd hl0b, hl0t]
        · intro tr htr
          rw [List.getLast?_concat] at htr
          injection htr with htr
          rw [← htr]
          exact hd
        · rw [anchorOf_concat, hidx,
            List.getLast?_eq_getLast (x :: xs) (List.cons_ne_nil x xs)]
          rfl

/-- The whole track-consumption loop preserves the duration invariant. -/
theorem fileLoop_inv : ∀ fuel cmds tracks lt,
    List.Chain' durR tracks → lastNoneP tracks → lt = anchorOf tracks →
    List.Chain' durR (fileLoop fuel cmds tracks lt).1
    ∧ lastNoneP (fileLoop fuel cmds tracks lt).1 := by
  intro fuel
  induction fuel with
  | zero => intro cmds tracks lt h1 h2 _; exact ⟨h1, h2⟩
  | succ n ih =>
    intro cmds tracks lt h1 h2 h3
    cases cmds with
    | nil => exact ⟨h1, h2⟩
    | cons c cs =>
      rcases htc : Track.consume (c :: cs) with ⟨res, rem⟩
      cases res with
      | error e =>
        simp only [fileLoop]
        rw [htc]
        exact ⟨h1, h2⟩
      | ok track =>
        have hd := Track.consume_duration (c :: cs) track rem htc
        obtain ⟨p1, p2, p3⟩ := fileStep_inv tracks lt track h1 h2 h3 hd
        simp only [fileLoop]
        rw [htc]
        exact ih rem _ _ p1 p2 p3

/-- Every file produced by TrackFile::consume satisfies the adjacent-pair
duration relation, and its last track has no duration. -/
theorem TrackFile.consume_spec : ∀ cmds tf rem,
    TrackFile.consume cmds = (Except.ok tf, rem) →
    List.Chain' durR tf.tracks ∧ lastNoneP tf.tracks := by
  intro cmds tf rem h
  cases cmds with
  | nil => exact absurd h (by simp [TrackFile.consume])
  | cons c rest =>
    cases c with
    | file name format =>
      simp only [TrackFile.consume] at h
      injection h with h1 h2
      injection h1 with h1
      rw [← h1]
      exact fileLoop_inv rest.length rest [] none List.chain'_nil
        (by intro tr htr; exact absurd htr (by simp)) rfl
    | catalog p => exact absurd h (by simp [TrackFile.consume])
    | performer p => exact absurd h (by simp [TrackFile.consume])
    | title t => exact absurd h (by simp [TrackFile.consume])
    | rem k v => exact absurd h (by simp [TrackFile.consume])
    | track n t => exact absurd h (by simp [TrackFile.consume])
    | pregap l2 => exact absurd h (by simp [TrackFile.consume])
    | index n tm => exact absurd h (by simp [TrackFile.consume])
    | isrc s => exact absurd h (by simp [TrackFile.consume])

/-- A chain relation specialized to positional lookups. -/
theorem chain'_get? {α : Type} (R : α → α → Prop) :
    ∀ (l : List α), List.Chain' R l →
      ∀ i a b, l.get? i = some a → l.get? (i + 1) = some b → R a b := by
  intro l
  induction l with
  | nil => intro _ i a b ha _; exact absurd ha (by simp)
  | cons x xs ih =>
    intro hc i a b ha hb
    cases xs with
    | nil =>
      cases i with
      | zero => exact absurd hb (by simp)
      | succ n => exact absurd hb (by simp)
    | cons y ys =>
      rw [List.chain'_cons] at hc
      cases i with
      | zero =>
        simp only [List.get?_cons_zero, Option.some.injEq] at ha
        simp only [List.get?_cons_succ, List.get?_cons_zero, Option.some.injEq] at hb
        rw [← ha, ← hb]
        exact hc.1
      | succ n =>
        rw [List.get?_cons_succ] at ha
        rw [List.get?_cons_succ] at hb
        exact ih hc.2 n a b ha hb

/-- C4.  For every file produced by the File Assembler and every pair of
consecutive tracks whose index lists both have entries, the duration of
the earlier track equals subtract(first index time of the later track,
last index time of the earlier track) (first conjunct); on the worked
two-track example the inferred duration of track 1 is Time(5,47,50)
(second conjunct). -/
theorem c4 :
    (∀ cmds tf rem, TrackFile.consume cmds = (Except.ok tf, rem) →
      ∀ i ti tj s l, tf.tracks.get? i = some ti →
        tf.tracks.get? (i + 1) = some tj →
        tj.index.head? = some s → ti.index.getLast? = some l →
        ti.duration = some (Time.sub s.2 l.2))
    ∧ TrackFile.consume c4_input = (Except.ok c4_file, []) := by
  constructor
  · intro cmds tf rem h i ti tj s l hti htj hs hl
    have hchain := (TrackFile.consume_spec cmds tf rem h).1
    have hR := chain'_get? durR tf.tracks hchain i ti tj hti htj
    unfold durR at hR
    rw [hR, expectedDuration_some ti tj s l hs hl]
  · rfl

/-- C4, witness: the general statement applied to the worked two-track
file, giving track 1 the duration 05:47:50. -/
theorem c4_witness :
    c4_track1.duration
      = some (Time.sub (Time.mk 5 47 50) (Time.mk 0 0 0)) :=
  c4.1 c4_input c4_file [] (by rfl) 0 c4_track1 c4_track2
    (1, Time.mk 5 47 50) (1, Time.mk 0 0 0) (by rfl) (by rfl) (by rfl) (by rfl)

/-- C5.  The last track of every file produced by the File Assembler has
duration None (first conjunct); concretely so for the two-track example
c5_input (second conjunct). -/
theorem c5 :
    (∀ cmds tf rem, TrackFile.consume cmds = (Except.ok tf, rem) →
      ∀ tr, tf.tracks.getLast? = some tr → tr.duration = none)
    ∧ TrackFile.consume c5_input = (Except.ok c5_file, []) := by
  constructor
  · intro cmds tf rem h tr htr
    exact (TrackFile.consume_spec cmds tf rem h).2 tr htr
  · rfl

/-- C5, witness: the final track of the assembled c5_input file has no
duration. -/
theorem c5_witness : c5_track2.duration = none :=
  c5.1 c5_input c5_file [] (by rfl) c5_track2 (by rfl)

/-- C6.  A track with an empty index list breaks the inference chain: in
every file produced by the File Assembler, a consecutive pair one of
whose index lists is empty leaves the earlier track without duration
(first conjunct, covering both neighbors of an index-less track); on the
concrete three-track file with an index-less middle track every duration
is None (second conjunct). -/
theorem c6 :
    (∀ cmds tf rem, TrackFile.consume cmds = (Except.ok tf, rem) →
      ∀ i ti tj, tf.tracks.get? i = some ti →
        tf.tracks.get? (i + 1) = some tj →
        (ti.index = [] ∨ tj.index = []) → ti.duration = none)
    ∧ TrackFile.consume c6_input = (Except.ok c6_file, []) := by
  constructor
  · intro cmds tf rem h i ti tj hti htj hor
    have hchain := (TrackFile.consume_spec cmds tf rem h).1
    have hR := chain'_get? durR tf.tracks hchain i ti tj hti htj
    unfold durR at hR
    rcases hor with hor | hor
    · rw [hR, expectedDuration_left_nil ti tj hor]
    · rw [hR, expectedDuration_right_nil ti tj hor]
  · rfl

/-- C6, witness: in the assembled c6_input file, the indexed track right
before the index-less track receives no duration through it. -/
theorem c6_witness : c6_track1.duration = none :=
  c6.1 c6_input c6_file [] (by rfl) 0 c6_track1 c6_track2
    (by rfl) (by rfl) (Or.inr (by rfl))

end CueSheet
